import Mathlib

/-!
Shallow embedding of `src/textual/timer.py` (the `Timer` class): the
auto-naming of timers, the scheduling loop `_run`, the dispatch helper
`_tick`, and the control operations `pause` / `resume` / `reset`.

Wall-clock instants and durations are modelled as rationals, tick counters
as integers.  The scheduling loop is embedded as a small-step state machine
whose suspension points (gate waits and the sleep) are explicit program
points; each step consumes one environment record supplying the value the
clock would return at that step and the outcome dispatch would have there.
-/

set_option autoImplicit false

namespace TimerModel

/-! ### Auto-generated timer names (timer.py lines 45, 61-62)

The source stores a class attribute `_timer_count: int = 1` on `Timer`.
In `__init__` it runs, on a fresh instance `self`:

  `self.name = f"Timer#\x7bself._timer_count\x7d" if name is None else name`
  `self._timer_count += 1`

Python attribute semantics: a read of `self._timer_count` resolves to the
instance attribute when present and otherwise falls back to the class
attribute; the augmented assignment reads through that lookup and then
writes the **instance** attribute, leaving the class attribute untouched.
We model the lookup and the constructor faithfully. -/

/-- Initial value of the class attribute `Timer._timer_count` (line 45). -/
def timer_count_initial : Nat := 1

/-- Python attribute read of `self._timer_count`: instance attribute when
present, class attribute otherwise. -/
def lookup_timer_count (classAttr : Nat) (instAttr : Option Nat) : Nat :=
  instAttr.getD classAttr

/-- The naming-relevant result of one `Timer.__init__` call. -/
structure TimerNaming where
  name : String
  inst_timer_count : Option Nat
  deriving Repr, DecidableEq

/-- Lines 61-62 of `Timer.__init__`, for a fresh instance (no instance
attribute yet).  Returns the constructed instance data together with the
class attribute value after the call: the f-string reads the counter
through attribute lookup, and `self._timer_count += 1` reads through the
same lookup and then creates the instance attribute, so the class
attribute comes back unchanged. -/
def timer_init_name (classAttr : Nat) (nameArg : Option String) : TimerNaming × Nat :=
  let name :=
    match nameArg with
    | none => "Timer#" ++ toString (lookup_timer_count classAttr none)
    | some n => n
  let newInst := lookup_timer_count classAttr none + 1
  ({ name := name, inst_timer_count := some newInst }, classAttr)

/-! ### Skip arithmetic (timer.py line 163) -/

/-- Python `int()` applied to a rational: truncation toward zero. -/
def pyInt (q : ℚ) : ℤ := if 0 ≤ q then ⌊q⌋ else ⌈q⌉

/-- The recomputation `count = int((now - start) / _interval + 1)` performed
by the skip branch of `_run` (line 163). -/
def skipRecount (start now interval : ℚ) : ℤ :=
  pyInt ((now - start) / interval + 1)

/-! ### Dispatch (`Timer._tick`, timer.py lines 180-203) -/

/-- Payload of the `events.Timer` message posted to the target
(lines 197-202): the computed fire time and the tick count. -/
structure TimerEvent where
  time : ℚ
  count : ℤ
  deriving Repr, DecidableEq

/-- Possible outcomes of `await invoke(self._callback)` (line 189): the
callback returns normally, raises `CancelledError`, or raises some other
exception (identified by a number). -/
inductive CallbackOutcome where
  | ok
  | cancelled
  | error (e : Nat)
  deriving Repr, DecidableEq

/-- Observable result of one `_tick` call: it returns normally, having
posted the given events and reported the given errors to
`app._handle_exception`, or it raises `CancelledError`, or it raises
`EventTargetGone`. -/
inductive TickResult where
  | completed (posted : List TimerEvent) (reported : List Nat)
  | cancelled
  | targetGone
  deriving Repr, DecidableEq

/-- Static configuration of one `Timer` (constructor arguments that the
loop reads): `interval`, `_repeat`, `_skip` and whether `_callback` is not
`None`. -/
structure TimerConfig where
  interval : ℚ
  repeatCount : Option ℤ
  skip : Bool
  hasCallback : Bool

/-- Environment of one machine step: the value `_time.get_time()` would
return at this step, whether `app._exit` is set, what the callback does if
invoked at this step, and whether the weak reference `self._target` still
resolves at this step. -/
structure Env where
  now : ℚ
  appExit : Bool
  cbOutcome : CallbackOutcome
  targetAlive : Bool

/-- Shallow embedding of `Timer._tick` (lines 180-203): when `app._exit`
is set the tick is dropped; with a callback configured, `CancelledError`
is re-raised and any other exception is reported to the host error handler
without terminating; with no callback, an `events.Timer` message is built
and posted to the target, which raises `EventTargetGone` when the weak
reference no longer resolves. -/
def tick (cfg : TimerConfig) (appExit : Bool) (cbOutcome : CallbackOutcome)
    (targetAlive : Bool) (next_timer : ℚ) (count : ℤ) : TickResult :=
  if appExit then
    TickResult.completed [] []
  else if cfg.hasCallback then
    match cbOutcome with
    | CallbackOutcome.ok => TickResult.completed [] []
    | CallbackOutcome.cancelled => TickResult.cancelled
    | CallbackOutcome.error e => TickResult.completed [] [e]
  else if targetAlive then
    TickResult.completed [{ time := next_timer, count := count }] []
  else
    TickResult.targetGone

/-! ### The scheduling loop (`Timer._run`, timer.py lines 150-178) -/

/-- Reason the loop ended: the while condition became false, `_tick`
raised `EventTargetGone` (caught by the `break`), or `CancelledError`
propagated out (caught by `_run_timer`). -/
inductive StopReason where
  | repeatExhausted
  | targetGone
  | cancelled
  deriving Repr, DecidableEq

/-- Program points of `_run`, between and at its suspension points.  Data
arguments carry the local `next_timer` (and, while sleeping, the computed
`wait_time`). -/
inductive Phase where
  | initWait
  | readStart
  | check
  | skipCheck (next_timer : ℚ)
  | preSleep (next_timer : ℚ)
  | sleeping (next_timer : ℚ) (wait_time : ℚ)
  | gateWait (next_timer : ℚ)
  | resetCheck (next_timer : ℚ)
  | ticking (next_timer : ℚ)
  | done (reason : StopReason)
  deriving Repr, DecidableEq

/-- Mutable state of one running `_run` task: the program point, the
locals `count` and `start`, whether the `_active` event is set, and the
`_reset` flag. -/
structure TimerState where
  phase : Phase
  count : ℤ
  start : ℚ
  gateOpen : Bool
  resetFlag : Bool
  deriving Repr, DecidableEq

/-- What one machine step does, as observed from outside: nothing visible,
a block on the closed gate, a sleep of the given duration, or one `_tick`
dispatch with its fire time, count and result. -/
inductive Output where
  | silent
  | blocked
  | slept (duration : ℚ)
  | dispatched (next_timer : ℚ) (count : ℤ) (res : TickResult)
  deriving Repr, DecidableEq

/-- Where control goes after `await self._tick(...)` inside the `try` of
lines 175-178: a normal return continues the loop, `EventTargetGone` hits
the `break`, and `CancelledError` propagates out of `_run` into
`_run_timer`, ending the task. -/
def phaseAfterTick : TickResult → Phase
  | TickResult.completed _ _ => Phase.check
  | TickResult.cancelled => Phase.done StopReason.cancelled
  | TickResult.targetGone => Phase.done StopReason.targetGone

/-- Loop condition of the `while` on line 159:
`_repeat is None or count <= _repeat`. -/
def continueLoop (cfg : TimerConfig) (count : ℤ) : Bool :=
  match cfg.repeatCount with
  | none => true
  | some r => decide (count ≤ r)

/-- State of `_run` at its first suspension point: `count = 0` (line 152),
the gate materialized set unless the timer was constructed paused
(lines 70-75), the `_reset` flag clear (line 67).  The local `start` is
first written on line 157 before any read; its placeholder here is 0. -/
def initState (pauseArg : Bool) : TimerState :=
  { phase := Phase.initWait
    count := 0
    start := 0
    gateOpen := !pauseArg
    resetFlag := false }

/-- `Timer.pause` (lines 127-132): `self._active.clear()`. -/
def pause (s : TimerState) : TimerState :=
  { s with gateOpen := false }

/-- `Timer.resume` (lines 139-141): `self._active.set()`. -/
def resume (s : TimerState) : TimerState :=
  { s with gateOpen := true }

/-- `Timer.reset` (lines 134-137): `self._active.set()` and
`self._reset = True`. -/
def reset (s : TimerState) : TimerState :=
  { s with gateOpen := true, resetFlag := true }

/-- One small step of `_run` (lines 150-178).  Each program point performs
exactly the work the corresponding source lines do before the next
suspension point or branch: the initial gate wait (line 156), the read of
`start` (line 157), the while condition and the computation of
`next_timer` (lines 159-160), the skip check against a fresh clock reading
(lines 161-164), the second clock reading and `wait_time` (lines 165-166),
the sleep and the increment of `count` (lines 167-168), the per-cycle gate
wait (line 169), the reset check (lines 170-174), and the dispatch with
its exception handling (lines 175-178). -/
def step (cfg : TimerConfig) (env : Env) (s : TimerState) : TimerState × Output :=
  match s.phase with
  | Phase.initWait =>
      if s.gateOpen then ({ s with phase := Phase.readStart }, Output.silent)
      else (s, Output.blocked)
  | Phase.readStart =>
      ({ s with start := env.now, phase := Phase.check }, Output.silent)
  | Phase.check =>
      if continueLoop cfg s.count then
        ({ s with phase := Phase.skipCheck (s.start + (s.count + 1) * cfg.interval) },
          Output.silent)
      else
        ({ s with phase := Phase.done StopReason.repeatExhausted }, Output.silent)
  | Phase.skipCheck next_timer =>
      if cfg.skip = true ∧ next_timer < env.now then
        ({ s with
            count := skipRecount s.start env.now cfg.interval
            phase := Phase.check }, Output.silent)
      else
        ({ s with phase := Phase.preSleep next_timer }, Output.silent)
  | Phase.preSleep next_timer =>
      ({ s with phase := Phase.sleeping next_timer (max 0 (next_timer - env.now)) },
        Output.silent)
  | Phase.sleeping next_timer wait_time =>
      ({ s with count := s.count + 1, phase := Phase.gateWait next_timer },
        Output.slept wait_time)
  | Phase.gateWait next_timer =>
      if s.gateOpen then ({ s with phase := Phase.resetCheck next_timer }, Output.silent)
      else (s, Output.blocked)
  | Phase.resetCheck next_timer =>
      if s.resetFlag then
        ({ s with
            start := env.now
            count := 0
            resetFlag := false
            phase := Phase.check }, Output.silent)
      else
        ({ s with phase := Phase.ticking next_timer }, Output.silent)
  | Phase.ticking next_timer =>
      let res := tick cfg env.appExit env.cbOutcome env.targetAlive next_timer s.count
      ({ s with phase := phaseAfterTick res }, Output.dispatched next_timer s.count res)
  | Phase.done _ => (s, Output.silent)

/-- Runs `fuel` machine steps, feeding step number `i` the environment
`envs i`; returns the final state and the outputs in order. -/
def runN (cfg : TimerConfig) (envs : Nat → Env) : Nat → Nat → TimerState → TimerState × List Output
  | 0, _, s => (s, [])
  | fuel + 1, i, s =>
      let p := step cfg (envs i) s
      let q := runN cfg envs fuel (i + 1) p.1
      (q.1, p.2 :: q.2)

/-- Counts of the dispatched ticks among a list of outputs. -/
def dispatchCounts : List Output → List ℤ
  | [] => []
  | Output.dispatched _ c _ :: rest => c :: dispatchCounts rest
  | _ :: rest => dispatchCounts rest

/-- Fire times and counts of the dispatched ticks among a list of outputs. -/
def dispatchList : List Output → List (ℚ × ℤ)
  | [] => []
  | Output.dispatched t c _ :: rest => (t, c) :: dispatchList rest
  | _ :: rest => dispatchList rest

/-- Events actually posted to the target among a list of outputs. -/
def postedEvents : List Output → List TimerEvent
  | [] => []
  | Output.dispatched _ _ (TickResult.completed posted _) :: rest =>
      posted ++ postedEvents rest
  | _ :: rest => postedEvents rest

/-- The list `a, a + 1, ..., a + n - 1`. -/
def countList : ℤ → Nat → List ℤ
  | _, 0 => []
  | a, n + 1 => a :: countList (a + 1) n

/-! ### Helper lemmas -/

theorem pyInt_eq_floor (q : ℚ) (h : 0 ≤ q) : pyInt q = ⌊q⌋ := if_pos h

theorem floor_le_pyInt (q : ℚ) : ⌊q⌋ ≤ pyInt q := by
  unfold pyInt
  split
  · exact le_refl _
  · exact Int.floor_le_ceil q

theorem skipRecount_eq_floor (start now interval : ℚ) (hpos : 0 < interval)
    (h : 0 ≤ now - start) :
    skipRecount start now interval = ⌊(now - start) / interval⌋ + 1 := by
  have hq : 0 ≤ (now - start) / interval := div_nonneg h hpos.le
  unfold skipRecount
  rw [pyInt_eq_floor _ (by linarith)]
  exact Int.floor_add_one _

theorem phaseAfterTick_ne_ticking (r : TickResult) (nt : ℚ) :
    ¬ phaseAfterTick r = Phase.ticking nt := by
  cases r <;> simp [phaseAfterTick]

theorem phaseAfterTick_ne_resetCheck (r : TickResult) (nt : ℚ) :
    ¬ phaseAfterTick r = Phase.resetCheck nt := by
  cases r <;> simp [phaseAfterTick]

theorem runN_succ (cfg : TimerConfig) (envs : Nat → Env) (fuel i : Nat) (s : TimerState) :
    runN cfg envs (fuel + 1) i s =
      ((runN cfg envs fuel (i + 1) (step cfg (envs i) s).1).1,
        (step cfg (envs i) s).2 :: (runN cfg envs fuel (i + 1) (step cfg (envs i) s).1).2) :=
  rfl

theorem runN_add (cfg : TimerConfig) (envs : Nat → Env) (a b : Nat) :
    ∀ (i : Nat) (s : TimerState),
      runN cfg envs (a + b) i s =
        ((runN cfg envs b (i + a) (runN cfg envs a i s).1).1,
          (runN cfg envs a i s).2 ++ (runN cfg envs b (i + a) (runN cfg envs a i s).1).2) := by
  induction a with
  | zero =>
      intro i s
      simp [runN]
  | succ n ih =>
      intro i s
      have hfuel : n + 1 + b = (n + b) + 1 := by omega
      rw [hfuel, runN_succ, runN_succ, ih]
      simp [Nat.add_assoc, Nat.add_comm 1 n]

theorem runN_done (cfg : TimerConfig) (envs : Nat → Env) (reason : StopReason) :
    ∀ (fuel i : Nat) (s : TimerState), s.phase = Phase.done reason →
      runN cfg envs fuel i s = (s, List.replicate fuel Output.silent) := by
  intro fuel
  induction fuel with
  | zero => intro i s _; simp [runN]
  | succ n ih =>
      intro i s h
      rw [runN_succ]
      have hstep : step cfg (envs i) s = (s, Output.silent) := by
        unfold step
        rw [h]
      rw [hstep, ih (i + 1) s h]
      simp [List.replicate]

theorem dispatchCounts_append (xs ys : List Output) :
    dispatchCounts (xs ++ ys) = dispatchCounts xs ++ dispatchCounts ys := by
  induction xs with
  | nil => simp [dispatchCounts]
  | cons x rest ih =>
      cases x with
      | dispatched t c r => simp [dispatchCounts, ih]
      | silent => simp [dispatchCounts, ih]
      | blocked => simp [dispatchCounts, ih]
      | slept d => simp [dispatchCounts, ih]

theorem dispatchCounts_replicate_silent (n : Nat) :
    dispatchCounts (List.replicate n Output.silent) = [] := by
  induction n with
  | zero => simp [dispatchCounts]
  | succ m ih => simp [List.replicate, dispatchCounts, ih]

theorem postedEvents_replicate_silent (n : Nat) :
    postedEvents (List.replicate n Output.silent) = [] := by
  induction n with
  | zero => simp [postedEvents]
  | succ m ih => simp [List.replicate, postedEvents, ih]

/-- One benign cycle of the loop: gate open, no reset pending, skip off,
the while condition true, and the dispatch of this cycle succeeding in
whichever mode the timer was configured — a configured callback returning
normally, or no callback and a live target so the event post goes
through.  Seven steps take the machine from the top of the loop back to
the top of the loop, incrementing `count` once and dispatching exactly
that count. -/
theorem run_cycle (cfg : TimerConfig) (envs : Nat → Env) (i : Nat) (s : TimerState)
    (hphase : s.phase = Phase.check) (hgate : s.gateOpen = true)
    (hflag : s.resetFlag = false)
    (hskip : cfg.skip = false)
    (hcont : continueLoop cfg s.count = true)
    (hexit : (envs (i + 6)).appExit = false)
    (hok : cfg.hasCallback = true → (envs (i + 6)).cbOutcome = CallbackOutcome.ok)
    (halive : cfg.hasCallback = false → (envs (i + 6)).targetAlive = true) :
    (runN cfg envs 7 i s).1 = { s with phase := Phase.check, count := s.count + 1 }
      ∧ dispatchCounts (runN cfg envs 7 i s).2 = [s.count + 1] := by
  rcases hcb : cfg.hasCallback with _ | _
  · have ha := halive hcb
    refine ⟨?_, ?_⟩ <;>
      · simp only [show (7 : Nat) = 6 + 1 from rfl]
        simp only [runN_succ, runN]
        simp [step, tick, phaseAfterTick, dispatchCounts, hphase, hgate, hflag, hskip,
          hcont, hexit, hcb, ha]
  · have ho := hok hcb
    refine ⟨?_, ?_⟩ <;>
      · simp only [show (7 : Nat) = 6 + 1 from rfl]
        simp only [runN_succ, runN]
        simp [step, tick, phaseAfterTick, dispatchCounts, hphase, hgate, hflag, hskip,
          hcont, hexit, hcb, ho]

/-- Running the loop from the top with `d` repeats left: the machine
dispatches counts `s.count + 1, ..., s.count + d + 1` once each, then the
while condition fails and the loop ends, with any surplus fuel producing
nothing further. -/
theorem run_cycles (cfg : TimerConfig) (envs : Nat → Env) (r : ℤ)
    (hrep : cfg.repeatCount = some r) (hskip : cfg.skip = false)
    (hexit : ∀ j, (envs j).appExit = false)
    (hsucc : ∀ j, (cfg.hasCallback = true → (envs j).cbOutcome = CallbackOutcome.ok)
        ∧ (cfg.hasCallback = false → (envs j).targetAlive = true)) :
    ∀ (d : Nat), ∀ (k i : Nat), ∀ (s : TimerState), s.phase = Phase.check →
      s.gateOpen = true → s.resetFlag = false → s.count + d = r →
      dispatchCounts (runN cfg envs (7 * (d + 1) + 1 + k) i s).2
          = countList (s.count + 1) (d + 1)
        ∧ (runN cfg envs (7 * (d + 1) + 1 + k) i s).1
            = { s with phase := Phase.done StopReason.repeatExhausted, count := r + 1 } := by
  intro d
  induction d with
  | zero =>
      intro k i s hphase hgate hflag hcount
      have hc : s.count = r := by
        have := hcount
        push_cast at this
        omega
      have hcont : continueLoop cfg s.count = true := by
        simp [continueLoop, hrep, hc]
      have hfuel : 7 * (0 + 1) + 1 + k = 7 + (1 + k) := by omega
      rw [hfuel, runN_add cfg envs 7 (1 + k) i s]
      have hcyc := run_cycle cfg envs i s hphase hgate hflag hskip hcont
        (hexit (i + 6)) (hsucc (i + 6)).1 (hsucc (i + 6)).2
      rw [hcyc.1]
      have hstop : step cfg (envs (i + 7)) { s with phase := Phase.check, count := s.count + 1 }
          = ({ s with phase := Phase.done StopReason.repeatExhausted, count := s.count + 1 },
            Output.silent) := by
        unfold step
        simp [continueLoop, hrep, hc]
      have hrest : runN cfg envs (1 + k) (i + 7)
            { s with phase := Phase.check, count := s.count + 1 }
          = ({ s with phase := Phase.done StopReason.repeatExhausted, count := s.count + 1 },
            Output.silent :: List.replicate k Output.silent) := by
        have h1k : 1 + k = k + 1 := by omega
        rw [h1k] at *
        rw [runN_succ, hstop]
        rw [runN_done cfg envs StopReason.repeatExhausted k (i + 7 + 1) _ rfl]
      rw [hrest]
      constructor
      · rw [dispatchCounts_append, hcyc.2]
        simp [dispatchCounts, dispatchCounts_replicate_silent, countList]
      · simp [hc]
  | succ n ih =>
      intro k i s hphase hgate hflag hcount
      have hc : s.count + (n + 1 : ℤ) = r := by
        have := hcount
        push_cast at this
        omega
      have hcont : continueLoop cfg s.count = true := by
        simp [continueLoop, hrep]
        omega
      have hfuel : 7 * (n + 1 + 1) + 1 + k = 7 + (7 * (n + 1) + 1 + k) := by omega
      rw [hfuel, runN_add cfg envs 7 (7 * (n + 1) + 1 + k) i s]
      have hcyc := run_cycle cfg envs i s hphase hgate hflag hskip hcont
        (hexit (i + 6)) (hsucc (i + 6)).1 (hsucc (i + 6)).2
      rw [hcyc.1]
      have hnext := ih k (i + 7) { s with phase := Phase.check, count := s.count + 1 }
        rfl hgate hflag (by push_cast; omega)
      constructor
      · rw [dispatchCounts_append, hcyc.2, hnext.1]
        simp [dispatchCounts, countList]
      · rw [hnext.2]

/-! ### Claim theorems -/

/-- C1: the claim says any two timers constructed without an explicit name
receive distinct auto-generated names from a process-wide monotonically
increasing counter.  The code does not do this: `self._timer_count += 1`
reads the class attribute through instance lookup and then writes an
**instance** attribute, so the class attribute stays at its initial value
1 forever and every auto-named timer is named `Timer#1`.  This theorem
evaluates two successive constructions with `name=None` from the initial
class-attribute value: both receive the name `Timer#1`, and the class
attribute after the first construction is still 1. -/
theorem C1_auto_names_collide :
    (timer_init_name timer_count_initial none).1.name = "Timer#1"
      ∧ (timer_init_name (timer_init_name timer_count_initial none).2 none).1.name
          = "Timer#1"
      ∧ (timer_init_name timer_count_initial none).2 = timer_count_initial :=
  ⟨rfl, rfl, rfl⟩

/-- C3 counterexample: concrete run refuting that dispatch resumes at the
first non-overdue count.  Interval 1, anchor 0, counter 1 at the top of
the loop, clock frozen at 7/2: the fire times of ticks 2 and 3 (2 and 3)
have both passed, the first count whose fire time has not passed is 4
(since 7/2 ≤ 4), yet the machine recomputes the counter to 4 and the
first dispatch after the skip is tick 5 at fire time 5 — not tick 4. -/
theorem C3_counterexample :
    dispatchList (runN ⟨1, none, true, true⟩
          (fun _ => ⟨7/2, false, CallbackOutcome.ok, true⟩) 9 0
          ⟨Phase.check, 1, 0, true, false⟩).2 = [(5, 5)]
      ∧ ((0 : ℚ) + 2 * 1 < 7/2 ∧ (0 : ℚ) + 3 * 1 < 7/2)
      ∧ ((7 : ℚ)/2 ≤ 0 + 4 * 1)
      ∧ (5 : ℤ) ≠ 4 := by
  refine ⟨?_, by norm_num, by norm_num, by norm_num⟩
  norm_num [runN, step, tick, skipRecount, pyInt, continueLoop, dispatchList]

/-- C3 (amended): with skip enabled, when the fire time of the pending
tick has already passed at the check, the recomputed counter
`c = int((now - start)/interval + 1) = floor((now - start)/interval) + 1`
makes dispatch resume at count `c + 1 = floor((now - start)/interval) + 2`:
every count whose fire time has already passed is strictly below the
resumed count (overdue ticks are never individually dispatched) and the
resumed count is itself not overdue, but it need not be the first
non-overdue count. -/
theorem C3_skip_coalesces (start now interval : ℚ) (count : ℤ)
    (hpos : 0 < interval) (hcount : 0 ≤ count)
    (hlate : start + (count + 1) * interval < now) :
    now ≤ start + (skipRecount start now interval + 1) * interval
      ∧ (∀ k : ℤ, start + k * interval < now → k < skipRecount start now interval + 1)
      ∧ skipRecount start now interval + 1 = ⌊(now - start) / interval⌋ + 2 := by
  have hcq : (0 : ℚ) < (count : ℚ) + 1 := by
    have : (0 : ℚ) ≤ (count : ℚ) := by exact_mod_cast hcount
    linarith
  have hgap : 0 ≤ now - start := by nlinarith
  have hre := skipRecount_eq_floor start now interval hpos hgap
  have hfl : (now - start) / interval < ⌊(now - start) / interval⌋ + 1 :=
    Int.lt_floor_add_one _
  rw [div_lt_iff₀ hpos] at hfl
  refine ⟨?_, ?_, ?_⟩
  · rw [hre]
    push_cast
    nlinarith
  · intro k hk
    rw [hre]
    have hkq : (k : ℚ) * interval < now - start := by linarith
    have hkd : (k : ℚ) < (now - start) / interval := by
      rw [lt_div_iff₀ hpos]
      exact hkq
    have hkfl : k ≤ ⌊(now - start) / interval⌋ := Int.le_floor.2 hkd.le
    omega
  · omega

/-- C3 witness: the amended theorem applied at anchor 0, clock 7/2,
interval 1, counter 1. -/
theorem C3_skip_coalesces_witness :
    (7 : ℚ)/2 ≤ 0 + (skipRecount 0 (7/2) 1 + 1) * 1
      ∧ (∀ k : ℤ, (0 : ℚ) + k * 1 < 7/2 → k < skipRecount 0 (7/2) 1 + 1)
      ∧ skipRecount 0 (7/2) 1 + 1 = ⌊((7 : ℚ)/2 - 0) / 1⌋ + 2 :=
  C3_skip_coalesces 0 (7/2) 1 1 (by norm_num) (by norm_num) (by norm_num)

/-- C4: in the scheduling loop, with skip enabled and the pending fire
time `next_timer = start + (count + 1) * interval` strictly earlier than
the clock, the step recomputes the counter to
`floor((now - start) / interval) + 1` and returns to the fire-time
computation with no sleep and no dispatch (the step is silent); moreover a
single recomputation suffices: at the same clock value the recomputed
next fire time is no longer overdue. -/
theorem C4_skip_recompute (cfg : TimerConfig) (env : Env) (s : TimerState) (next_timer : ℚ)
    (hphase : s.phase = Phase.skipCheck next_timer)
    (hskip : cfg.skip = true)
    (hnext : next_timer = s.start + (s.count + 1) * cfg.interval)
    (hlate : next_timer < env.now)
    (hpos : 0 < cfg.interval) (hcount : 0 ≤ s.count) :
    step cfg env s
        = ({ s with
              count := ⌊(env.now - s.start) / cfg.interval⌋ + 1
              phase := Phase.check }, Output.silent)
      ∧ ¬ s.start + ((⌊(env.now - s.start) / cfg.interval⌋ + 1 + 1 : ℤ) * cfg.interval)
          < env.now := by
  have hcq : (0 : ℚ) < (s.count : ℚ) + 1 := by
    have : (0 : ℚ) ≤ (s.count : ℚ) := by exact_mod_cast hcount
    linarith
  have hgap : 0 ≤ env.now - s.start := by nlinarith [hnext ▸ hlate]
  have hre := skipRecount_eq_floor s.start env.now cfg.interval hpos hgap
  constructor
  · simp [step, hphase, hskip, hlate, hre]
  · have hfl : (env.now - s.start) / cfg.interval < ⌊(env.now - s.start) / cfg.interval⌋ + 1 :=
      Int.lt_floor_add_one _
    rw [div_lt_iff₀ hpos] at hfl
    push_cast
    nlinarith

/-- C4 witness: the theorem applied at the state of the C3 counterexample
run (anchor 0, counter 1, interval 1, clock 7/2). -/
theorem C4_skip_recompute_witness :
    step ⟨1, none, true, true⟩ ⟨7/2, false, CallbackOutcome.ok, true⟩
          ⟨Phase.skipCheck 2, 1, 0, true, false⟩
        = (⟨Phase.check, ⌊((7 : ℚ)/2 - 0) / 1⌋ + 1, 0, true, false⟩, Output.silent)
      ∧ ¬ (0 : ℚ) + ((⌊((7 : ℚ)/2 - 0) / 1⌋ + 1 + 1 : ℤ) * 1) < 7/2 :=
  C4_skip_recompute ⟨1, none, true, true⟩ ⟨7/2, false, CallbackOutcome.ok, true⟩
    ⟨Phase.skipCheck 2, 1, 0, true, false⟩ 2 rfl rfl (by norm_num) (by norm_num)
    (by norm_num) (by norm_num)

/-- C5: whenever the skip branch fires (positive interval, pending fire
time already passed), the recomputed counter is strictly greater than the
counter it replaces: the skip recomputation only ever advances the tick
counter. -/
theorem C5_skip_monotone (start now interval : ℚ) (count : ℤ)
    (hpos : 0 < interval)
    (hlate : start + (count + 1) * interval < now) :
    count < skipRecount start now interval := by
  have hq : ((count : ℚ) + 1) < (now - start) / interval := by
    rw [lt_div_iff₀ hpos]
    linarith
  have h1 : count + 1 ≤ ⌊(now - start) / interval⌋ := by
    apply Int.le_floor.2
    push_cast
    exact hq.le
  have h2 : ⌊(now - start) / interval + 1⌋ ≤ pyInt ((now - start) / interval + 1) :=
    floor_le_pyInt _
  have h3 : ⌊(now - start) / interval + 1⌋ = ⌊(now - start) / interval⌋ + 1 :=
    Int.floor_add_one _
  unfold skipRecount
  omega

/-- C5 witness: the theorem applied at anchor 0, clock 7/2, interval 1,
counter 1 (the recomputed counter there is 4). -/
theorem C5_skip_monotone_witness : (1 : ℤ) < skipRecount 0 (7/2) 1 :=
  C5_skip_monotone 0 (7/2) 1 1 (by norm_num) (by norm_num)

/-- C2 counterexample: concrete run refuting that the loop waits on the
gate before computing the next fire time and sleeping.  The gate is
already closed (pause was called) with the loop at the top of a cycle
(interval 1, anchor 0, counter 0, skip off, clock at 0).  The machine
nevertheless computes the fire time, sleeps for one interval and
increments the counter (the fourth output is the sleep), and only then
blocks on the gate at the fifth step — right before dispatch, after the
compute and the sleep, contradicting the claimed order of blocking. -/
theorem C2_counterexample :
    (runN ⟨1, none, false, true⟩ (fun _ => ⟨0, false, CallbackOutcome.ok, true⟩)
          5 0 ⟨Phase.check, 0, 0, false, false⟩).2
        = [Output.silent, Output.silent, Output.silent, Output.slept 1, Output.blocked]
      ∧ (⟨Phase.check, 0, 0, false, false⟩ : TimerState).gateOpen = false := by
  refine ⟨?_, rfl⟩
  norm_num [runN, step, continueLoop]

/-- C2 (amended): the loop holds exactly one gate wait per cycle and it
sits after the sleep and before the reset check and dispatch.  With the
gate closed, the machine at the gate wait blocks with no state change (so
no dispatch happens while paused); a dispatch output only arises from the
dispatch point, which is only entered from the reset check with no reset
pending, which in turn is only entered from the gate wait with the gate
open.  A pause therefore guarantees blocking before the dispatch of the
next tick, not before its fire-time computation and sleep. -/
theorem C2_gate_wait_before_dispatch (cfg : TimerConfig) (env : Env) (s : TimerState)
    (nt : ℚ) :
    (s.phase = Phase.gateWait nt → s.gateOpen = false →
        step cfg env s = (s, Output.blocked))
      ∧ (∀ (c : ℤ) (res : TickResult),
          (step cfg env s).2 = Output.dispatched nt c res → s.phase = Phase.ticking nt)
      ∧ ((step cfg env s).1.phase = Phase.ticking nt →
          s.phase = Phase.resetCheck nt ∧ s.resetFlag = false)
      ∧ ((step cfg env s).1.phase = Phase.resetCheck nt →
          s.phase = Phase.gateWait nt ∧ s.gateOpen = true) := by
  obtain ⟨ph, c0, st, g, f⟩ := s
  refine ⟨?_, ?_, ?_, ?_⟩
  · intro h1 h2
    simp only at h1 h2
    subst h1
    subst h2
    simp [step]
  · intro c res h
    cases ph <;> simp only [step] at h ⊢ <;> (try split at h) <;>
      simp_all [phaseAfterTick_ne_ticking, phaseAfterTick_ne_resetCheck]
  · intro h
    cases ph <;> simp only [step] at h ⊢ <;> (try split at h) <;>
      simp_all [phaseAfterTick_ne_ticking, phaseAfterTick_ne_resetCheck]
  · intro h
    cases ph <;> simp only [step] at h ⊢ <;> (try split at h) <;>
      simp_all [phaseAfterTick_ne_ticking, phaseAfterTick_ne_resetCheck]

/-- C2 witness: the amended theorem applied at a closed gate: the machine
at the per-cycle gate wait with the gate closed blocks and keeps its
state. -/
theorem C2_gate_wait_before_dispatch_witness :
    step ⟨1, none, false, true⟩ ⟨0, false, CallbackOutcome.ok, true⟩
        ⟨Phase.gateWait 1, 1, 0, false, false⟩
      = (⟨Phase.gateWait 1, 1, 0, false, false⟩, Output.blocked) :=
  (C2_gate_wait_before_dispatch ⟨1, none, false, true⟩ ⟨0, false, CallbackOutcome.ok, true⟩
    ⟨Phase.gateWait 1, 1, 0, false, false⟩ 1).1 rfl rfl

/-- C6: when the loop observes a pending reset request at the reset check
(which sits after the sleep and the per-cycle gate wait), the step
re-anchors `start` to the clock, zeroes the counter, clears the reset flag
and returns to the top of the loop without dispatching (the step is
silent); provided the loop then proceeds normally (gate open, the fresh
first tick not already overdue at the skip check), the next dispatched
tick is count 1 at fire time `new anchor + interval`, whatever the prior
counter value was. -/
theorem C6_reset_reanchors (cfg : TimerConfig) (envs : Nat → Env) (i : Nat)
    (s : TimerState) (next_timer : ℚ)
    (hphase : s.phase = Phase.resetCheck next_timer)
    (hflag : s.resetFlag = true) (hgate : s.gateOpen = true)
    (hrep : continueLoop cfg 0 = true)
    (hskip : ¬ (cfg.skip = true ∧ (envs i).now + cfg.interval < (envs (i + 2)).now)) :
    step cfg (envs i) s
        = ({ s with
              start := (envs i).now
              count := 0
              resetFlag := false
              phase := Phase.check }, Output.silent)
      ∧ dispatchList (runN cfg envs 8 i s).2 = [((envs i).now + cfg.interval, 1)] := by
  constructor
  · simp [step, hphase, hflag]
  · simp only [show (8 : Nat) = 7 + 1 from rfl]
    simp only [runN_succ, runN]
    simp [step, hphase, hflag, hgate, hrep, dispatchList, hskip]

/-- C6 witness: the theorem applied with prior counter 7, interval 1 and
the clock at 5: the reset step re-anchors to 5 and the next dispatch is
tick 1 at fire time 6. -/
theorem C6_reset_reanchors_witness :
    step ⟨1, none, true, true⟩ ⟨5, false, CallbackOutcome.ok, true⟩
          ⟨Phase.resetCheck 3, 7, 0, true, true⟩
        = (⟨Phase.check, 0, 5, true, false⟩, Output.silent)
      ∧ dispatchList (runN ⟨1, none, true, true⟩
            (fun _ => ⟨5, false, CallbackOutcome.ok, true⟩) 8 0
            ⟨Phase.resetCheck 3, 7, 0, true, true⟩).2
          = [((5 : ℚ) + 1, 1)] :=
  C6_reset_reanchors ⟨1, none, true, true⟩ (fun _ => ⟨5, false, CallbackOutcome.ok, true⟩)
    0 ⟨Phase.resetCheck 3, 7, 0, true, true⟩ 3 rfl rfl rfl rfl (by norm_num)

/-- C7: for a timer with a bounded repeat `r` and skip disabled whose
dispatches all succeed — the callback, when one is configured, returning
normally, and with no callback the target staying alive so the event post
goes through — the full run from the initial state dispatches the counts
`1, 2, ..., r + 1` exactly once each (the while condition
`_repeat is None or count <= _repeat` admits exactly those) and then the
loop terminates as repeat-exhausted, with any surplus fuel producing no
further dispatch.  Each dispatch here is one `_tick` call, i.e. one
callback invocation or one event post, so either dispatch mode fires
exactly `r + 1` times. -/
theorem C7_bounded_repeat (cfg : TimerConfig) (envs : Nat → Env) (r k : Nat)
    (hrep : cfg.repeatCount = some (r : ℤ)) (hskip : cfg.skip = false)
    (hexit : ∀ j, (envs j).appExit = false)
    (hsucc : ∀ j, (cfg.hasCallback = true → (envs j).cbOutcome = CallbackOutcome.ok)
        ∧ (cfg.hasCallback = false → (envs j).targetAlive = true)) :
    dispatchCounts (runN cfg envs (2 + (7 * (r + 1) + 1 + k)) 0 (initState false)).2
        = countList 1 (r + 1)
      ∧ (runN cfg envs (2 + (7 * (r + 1) + 1 + k)) 0 (initState false)).1.phase
          = Phase.done StopReason.repeatExhausted := by
  rw [runN_add cfg envs 2 (7 * (r + 1) + 1 + k) 0 (initState false)]
  have h2 : runN cfg envs 2 0 (initState false)
      = (⟨Phase.check, 0, (envs 1).now, true, false⟩, [Output.silent, Output.silent]) := by
    simp [runN_succ, runN, step, initState]
  rw [h2]
  have hc := run_cycles cfg envs (r : ℤ) hrep hskip hexit hsucc r k (0 + 2)
    ⟨Phase.check, 0, (envs 1).now, true, false⟩ rfl rfl rfl (by simp)
  constructor
  · rw [dispatchCounts_append, hc.1]
    simp [dispatchCounts]
  · rw [hc.2]

/-- C7 witness: the theorem applied at repeat 2, interval 1, a constant
clock and three units of surplus fuel, once in each dispatch mode: first
with a callback configured and returning normally, then with no callback
and a live target.  In both modes the dispatched counts are exactly
1, 2, 3 and the machine ends repeat-exhausted. -/
theorem C7_bounded_repeat_witness :
    (dispatchCounts (runN ⟨1, some ((2 : Nat) : ℤ), false, true⟩
            (fun _ => ⟨0, false, CallbackOutcome.ok, true⟩) (2 + (7 * (2 + 1) + 1 + 3)) 0
            (initState false)).2
          = countList 1 (2 + 1)
        ∧ (runN ⟨1, some ((2 : Nat) : ℤ), false, true⟩
              (fun _ => ⟨0, false, CallbackOutcome.ok, true⟩) (2 + (7 * (2 + 1) + 1 + 3)) 0
              (initState false)).1.phase
            = Phase.done StopReason.repeatExhausted)
      ∧ (dispatchCounts (runN ⟨1, some ((2 : Nat) : ℤ), false, false⟩
              (fun _ => ⟨0, false, CallbackOutcome.ok, true⟩) (2 + (7 * (2 + 1) + 1 + 3)) 0
              (initState false)).2
            = countList 1 (2 + 1)
          ∧ (runN ⟨1, some ((2 : Nat) : ℤ), false, false⟩
                (fun _ => ⟨0, false, CallbackOutcome.ok, true⟩) (2 + (7 * (2 + 1) + 1 + 3)) 0
                (initState false)).1.phase
              = Phase.done StopReason.repeatExhausted) :=
  ⟨C7_bounded_repeat ⟨1, some ((2 : Nat) : ℤ), false, true⟩
      (fun _ => ⟨0, false, CallbackOutcome.ok, true⟩) 2 3 rfl rfl (fun _ => rfl)
      (fun _ => ⟨fun _ => rfl, fun _ => rfl⟩),
    C7_bounded_repeat ⟨1, some ((2 : Nat) : ℤ), false, false⟩
      (fun _ => ⟨0, false, CallbackOutcome.ok, true⟩) 2 3 rfl rfl (fun _ => rfl)
      (fun _ => ⟨fun _ => rfl, fun _ => rfl⟩)⟩

/-- C8: at the dispatch point with a callback configured (and the host not
exiting), a callback that raises the cancellation signal makes the
dispatch re-raise it unchanged — the loop moves to its cancelled terminal
state with the cancellation recorded in the dispatch result — while a
callback that raises any other exception is caught at the dispatch
boundary: the exception is forwarded to the host error handler (the
reported list of the result) and the loop returns to the top of the cycle
for the next tick. -/
theorem C8_callback_error_handling (cfg : TimerConfig) (env : Env) (s : TimerState)
    (next_timer : ℚ) (e : Nat)
    (hphase : s.phase = Phase.ticking next_timer)
    (hcb : cfg.hasCallback = true) (hexit : env.appExit = false) :
    (env.cbOutcome = CallbackOutcome.cancelled →
        step cfg env s = ({ s with phase := Phase.done StopReason.cancelled },
          Output.dispatched next_timer s.count TickResult.cancelled))
      ∧ (env.cbOutcome = CallbackOutcome.error e →
          step cfg env s = ({ s with phase := Phase.check },
            Output.dispatched next_timer s.count (TickResult.completed [] [e]))) := by
  constructor
  · intro hout
    simp [step, tick, phaseAfterTick, hphase, hcb, hexit, hout]
  · intro hout
    simp [step, tick, phaseAfterTick, hphase, hcb, hexit, hout]

/-- C8 witness: the theorem applied twice at concrete states: once with a
cancelling callback, once with a callback raising error 42. -/
theorem C8_callback_error_handling_witness :
    step ⟨1, none, true, true⟩ ⟨9, false, CallbackOutcome.cancelled, true⟩
          ⟨Phase.ticking 4, 4, 0, true, false⟩
        = (⟨Phase.done StopReason.cancelled, 4, 0, true, false⟩,
          Output.dispatched 4 4 TickResult.cancelled)
      ∧ step ⟨1, none, true, true⟩ ⟨9, false, CallbackOutcome.error 42, true⟩
            ⟨Phase.ticking 4, 4, 0, true, false⟩
          = (⟨Phase.check, 4, 0, true, false⟩,
            Output.dispatched 4 4 (TickResult.completed [] [42])) :=
  ⟨(C8_callback_error_handling ⟨1, none, true, true⟩
      ⟨9, false, CallbackOutcome.cancelled, true⟩ ⟨Phase.ticking 4, 4, 0, true, false⟩
      4 42 rfl rfl rfl).1 rfl,
    (C8_callback_error_handling ⟨1, none, true, true⟩
      ⟨9, false, CallbackOutcome.error 42, true⟩ ⟨Phase.ticking 4, 4, 0, true, false⟩
      4 42 rfl rfl rfl).2 rfl⟩

/-- C9: at the dispatch point with no callback configured and the weak
target reference no longer resolving (host not exiting), the tick raises
the distinguishable target-gone failure, the step moves the loop to its
silently terminated state, the dispatch posts no event, and from the
terminated state any amount of further fuel produces no output at all —
no event for any later tick and no error surfaced to the host. -/
theorem C9_target_gone_terminates (cfg : TimerConfig) (env : Env) (s : TimerState)
    (next_timer : ℚ)
    (hphase : s.phase = Phase.ticking next_timer)
    (hcb : cfg.hasCallback = false) (hexit : env.appExit = false)
    (hdead : env.targetAlive = false) :
    tick cfg env.appExit env.cbOutcome env.targetAlive next_timer s.count
        = TickResult.targetGone
      ∧ step cfg env s = ({ s with phase := Phase.done StopReason.targetGone },
          Output.dispatched next_timer s.count TickResult.targetGone)
      ∧ postedEvents [(step cfg env s).2] = []
      ∧ ∀ (fuel j : Nat) (envs2 : Nat → Env),
          runN cfg envs2 fuel j { s with phase := Phase.done StopReason.targetGone }
            = ({ s with phase := Phase.done StopReason.targetGone },
              List.replicate fuel Output.silent)
            ∧ postedEvents (List.replicate fuel Output.silent) = [] := by
  have htick : tick cfg env.appExit env.cbOutcome env.targetAlive next_timer s.count
      = TickResult.targetGone := by
    simp [tick, hcb, hexit, hdead]
  have hstep : step cfg env s = ({ s with phase := Phase.done StopReason.targetGone },
      Output.dispatched next_timer s.count TickResult.targetGone) := by
    simp [step, hphase, htick, phaseAfterTick]
  refine ⟨htick, hstep, ?_, ?_⟩
  · rw [hstep]
    simp [postedEvents]
  · intro fuel j envs2
    exact ⟨runN_done cfg envs2 StopReason.targetGone fuel j _ rfl,
      postedEvents_replicate_silent fuel⟩

/-- C9 witness: the theorem applied at a concrete dead-target state, with
the terminal run evaluated for three steps of surplus fuel. -/
theorem C9_target_gone_terminates_witness :
    tick ⟨1, none, true, false⟩ false CallbackOutcome.ok false 1 1
        = TickResult.targetGone
      ∧ step ⟨1, none, true, false⟩ ⟨2, false, CallbackOutcome.ok, false⟩
            ⟨Phase.ticking 1, 1, 0, true, false⟩
          = (⟨Phase.done StopReason.targetGone, 1, 0, true, false⟩,
            Output.dispatched 1 1 TickResult.targetGone)
      ∧ runN ⟨1, none, true, false⟩ (fun _ => ⟨2, false, CallbackOutcome.ok, false⟩) 3 0
            ⟨Phase.done StopReason.targetGone, 1, 0, true, false⟩
          = (⟨Phase.done StopReason.targetGone, 1, 0, true, false⟩,
            List.replicate 3 Output.silent) := by
  have h := C9_target_gone_terminates ⟨1, none, true, false⟩
    ⟨2, false, CallbackOutcome.ok, false⟩ ⟨Phase.ticking 1, 1, 0, true, false⟩ 1
    rfl rfl rfl rfl
  exact ⟨h.1, h.2.1, (h.2.2.2 3 0 (fun _ => ⟨2, false, CallbackOutcome.ok, false⟩)).1⟩

/-- C10: for a timer constructed paused, the machine sits at the initial
gate wait and any amount of fuel only ever blocks, leaving the state
(including the counter and the unset anchor) untouched — no tick
accumulates while paused.  Once resumed, the next two steps pass the
initial gate wait and record the anchor `start` from the clock reading
made after the resume; all fire times are then computed from that anchor.
The anchor is therefore the time of the first resume, not the time of
construction. -/
theorem C10_anchor_read_after_resume (cfg : TimerConfig) (envs : Nat → Env) (i : Nat) :
    (∀ (fuel j : Nat), runN cfg envs fuel j (initState true)
        = (initState true, List.replicate fuel Output.blocked))
      ∧ (runN cfg envs 2 i (resume (initState true))).1
          = ⟨Phase.check, 0, (envs (i + 1)).now, true, false⟩
      ∧ (runN cfg envs 2 i (resume (initState true))).2
          = [Output.silent, Output.silent] := by
  refine ⟨?_, ?_, ?_⟩
  · intro fuel
    induction fuel with
    | zero => intro j; simp [runN]
    | succ n ih =>
        intro j
        rw [runN_succ]
        have hstep : step cfg (envs j) (initState true) = (initState true, Output.blocked) := by
          simp [step, initState]
        rw [hstep, ih (j + 1)]
        simp [List.replicate]
  · simp [runN_succ, runN, step, resume, initState]
  · simp [runN_succ, runN, step, resume, initState]

end TimerModel
